import Mathlib

/-!
# Verification of the NYC Citi Bike dashboard's core transforms

A shallow embedding of the data pipeline of `dashboard_final.py`
(with `dashboard.py` as a secondary source): the season derivation in
`load_data`, the seasonal filter `df_filtered`, the top-station ranking
`top_20_station_names`, and the grouped reshape `df_stacked_data`, together
with theorems settling the specification's claims about them.

Pandas operations are embedded at the level of their documented behaviour on
the concrete dataframes involved:
* `Series.isin` over a possibly-missing (`NaN`) season column keeps exactly
  the rows whose season is present and selected;
* `Series.value_counts()` tabulates distinct values in order of first
  appearance and sorts by descending count (stably, so that
  `.nlargest(n)` with its default `keep='first'` retains
  earlier-appearing values among ties);
* `groupby([...]).size().reset_index()` (default `sort=True`,
  `dropna=True`) emits one row per present key, with the keys sorted
  ascending lexicographically, dropping rows whose key is missing.
Stable sorting is modelled by Mathlib's `List.insertionSort`.
-/

namespace CitiBike

/-- The four season labels produced by the season dictionary in
`load_data` (`dashboard_final.py`, lines 26–32). -/
inductive Season where
  | winter
  | spring
  | summer
  | fall
deriving DecidableEq, Repr

/-- The string stored in the `season` column for each label. -/
def seasonLabel : Season → String
  | .winter => "Winter"
  | .spring => "Spring"
  | .summer => "Summer"
  | .fall   => "Fall"

/-- The season dictionary of `load_data` (`dashboard_final.py`, lines 26–32),
applied to a month via `df['month'].map(seasons)`: months 1–12 map to their
season, any other value maps to a missing entry (`NaN`), since `Series.map`
yields `NaN` for keys absent from the dictionary. -/
def seasons (m : Nat) : Option Season :=
  if m = 12 ∨ m = 1 ∨ m = 2 then some .winter
  else if m = 3 ∨ m = 4 ∨ m = 5 then some .spring
  else if m = 6 ∨ m = 7 ∨ m = 8 then some .summer
  else if m = 9 ∨ m = 10 ∨ m = 11 then some .fall
  else none

/-- One row of the trip dataframe `df`, after `load_data` has derived the
`month` column from `started_at`.  Only the columns the station-popularity
pipeline reads are modelled. -/
structure TripRecord where
  month : Nat
  start_station_name : String
deriving DecidableEq, Repr

/-- The derived `season` column: `df['season'] = df['month'].map(seasons)`. -/
def TripRecord.season (r : TripRecord) : Option Season :=
  seasons r.month

/-- The row predicate of `df['season'].isin(season_filter)`: a row passes
iff its season entry is present and belongs to the selection (`isin` is
`False` on `NaN`). -/
def seasonIn (sel : List Season) (r : TripRecord) : Bool :=
  match r.season with
  | some s => decide (s ∈ sel)
  | none => false

/-- `df_filtered = df[df['season'].isin(season_filter)]`
(`dashboard_final.py`, line 103). -/
def df_filtered (records : List TripRecord) (sel : List Season) : List TripRecord :=
  records.filter (seasonIn sel)

/-- Distinct values of a column in order of first appearance (the key order
of pandas' hash-table tabulations before any sorting). -/
def distinctKeys {α : Type} [DecidableEq α] : List α → List α
  | [] => []
  | a :: l => a :: (distinctKeys l).filter (fun b => decide (b ≠ a))

/-- The count table underlying `value_counts`: each distinct value, in order
of first appearance, paired with its number of occurrences. -/
def station_counts (names : List String) : List (String × Nat) :=
  (distinctKeys names).map (fun s => (s, names.count s))

/-- Descending comparison on counts, the sort order of `value_counts`. -/
def countDesc {α : Type} (p q : α × Nat) : Prop :=
  q.2 ≤ p.2

instance {α : Type} : DecidableRel (@countDesc α) :=
  fun p q => inferInstanceAs (Decidable (q.2 ≤ p.2))

instance {α : Type} : IsTotal (α × Nat) countDesc :=
  ⟨fun p q => Nat.le_total q.2 p.2⟩

instance {α : Type} : IsTrans (α × Nat) countDesc :=
  ⟨fun _ _ _ hab hbc => Nat.le_trans hbc hab⟩

/-- `df_filtered['start_station_name'].value_counts()`: occurrence counts of
each station name, sorted by descending count; the stable sort keeps
first-appearance order among equal counts. -/
def value_counts (names : List String) : List (String × Nat) :=
  List.insertionSort countDesc (station_counts names)

/-- `top_20_station_names = df_filtered['start_station_name']
.value_counts().nlargest(20).index` (`dashboard_final.py`, line 110).
The source pins `topN = 20`; the cutoff is kept as a parameter. -/
def top_20_station_names (records : List TripRecord) (sel : List Season) (topN : Nat) :
    List String :=
  ((value_counts ((df_filtered records sel).map TripRecord.start_station_name)).take topN).map
    Prod.fst

/-- `df_top_20 = df_filtered[df_filtered['start_station_name']
.isin(top_20_station_names)]` (`dashboard_final.py`, line 111). -/
def df_top_20 (records : List TripRecord) (sel : List Season) (topN : Nat) :
    List TripRecord :=
  (df_filtered records sel).filter
    (fun r => decide (r.start_station_name ∈ top_20_station_names records sel topN))

/-- The `(start_station_name, season)` group key of a row; missing when the
season entry is `NaN` (pandas `groupby` drops such rows by default). -/
def groupKey (r : TripRecord) : Option (String × Season) :=
  (seasons r.month).map (fun s => (r.start_station_name, s))

/-- The multiset of group keys contributed by a dataframe's rows. -/
def groupPairs (l : List TripRecord) : List (String × Season) :=
  l.filterMap groupKey

/-- Strict lexicographic comparison of character lists by code point, the
order Python uses to compare the strings in a pandas sort key. -/
def charListLt : List Char → List Char → Bool
  | [], [] => false
  | [], _ :: _ => true
  | _ :: _, [] => false
  | a :: as, b :: bs =>
    if a < b then true
    else if b < a then false
    else charListLt as bs

/-- Strict string comparison by code points. -/
def strLt (a b : String) : Bool :=
  charListLt a.data b.data

theorem charListLt_irrefl : ∀ as, charListLt as as = false
  | [] => rfl
  | a :: as => by simp [charListLt, charListLt_irrefl as]

theorem charListLt_asymm :
    ∀ as bs, charListLt as bs = true → charListLt bs as = false
  | [], bs => by cases bs <;> simp [charListLt]
  | _ :: _, [] => by simp [charListLt]
  | a :: as, b :: bs => by
    intro h
    rw [charListLt] at h ⊢
    by_cases hab : a < b
    · simp [hab, asymm hab]
    · by_cases hba : b < a
      · simp [hab, hba] at h
      · simp only [hab, hba, if_neg, if_false] at h ⊢
        simpa using charListLt_asymm as bs (by simpa using h)

theorem charListLt_trans :
    ∀ as bs cs, charListLt as bs = true → charListLt bs cs = true →
      charListLt as cs = true
  | [], bs, cs => by
    cases bs <;> cases cs <;> simp [charListLt]
  | _ :: _, [], _ => by simp [charListLt]
  | _ :: _, _ :: _, [] => by simp [charListLt]
  | a :: as, b :: bs, c :: cs => by
    intro h1 h2
    rw [charListLt] at h1 h2 ⊢
    by_cases hab : a < b
    · by_cases hbc : b < c
      · simp [hab.trans hbc]
      · by_cases hcb : c < b
        · simp [hbc, hcb] at h2
        · have hbceq : b = c := le_antisymm (not_lt.mp hcb) (not_lt.mp hbc)
          subst hbceq
          simp [hab]
    · by_cases hba : b < a
      · simp [hab, hba] at h1
      · have habeq : a = b := le_antisymm (not_lt.mp hba) (not_lt.mp hab)
        subst habeq
        simp only [lt_irrefl, if_false, if_neg] at h1
        by_cases hac : a < c
        · simp [hac]
        · by_cases hca : c < a
          · simp [hac, hca] at h2
          · have haceq : a = c := le_antisymm (not_lt.mp hca) (not_lt.mp hac)
            subst haceq
            simp only [lt_irrefl, if_false, if_neg] at h2 ⊢
            exact charListLt_trans as bs cs (by simpa using h1) (by simpa using h2)

theorem charListLt_connex :
    ∀ as bs, charListLt as bs = false → charListLt bs as = false → as = bs
  | [], bs => by cases bs <;> simp [charListLt]
  | _ :: _, [] => by simp [charListLt]
  | a :: as, b :: bs => by
    intro h1 h2
    rw [charListLt] at h1 h2
    by_cases hab : a < b
    · simp [hab] at h1
    · by_cases hba : b < a
      · simp [hba] at h2
      · have habeq : a = b := le_antisymm (not_lt.mp hba) (not_lt.mp hab)
        subst habeq
        simp only [lt_irrefl, if_false, if_neg] at h1 h2
        rw [charListLt_connex as bs (by simpa using h1) (by simpa using h2)]

theorem strLt_connex {a b : String} (h1 : strLt a b = false) (h2 : strLt b a = false) :
    a = b := by
  cases a with
  | mk da =>
    cases b with
    | mk db =>
      have : da = db := charListLt_connex da db h1 h2
      rw [this]

/-- Ascending lexicographic order on group keys: by station name, then by
the season's string label (the `season` column holds plain strings, so
pandas' `groupby(sort=True)` orders seasons alphabetically:
Fall < Spring < Summer < Winter). -/
def keyLE (p q : String × Season) : Prop :=
  strLt p.1 q.1 = true ∨
    (p.1 = q.1 ∧ strLt (seasonLabel q.2) (seasonLabel p.2) = false)

instance : DecidableRel keyLE :=
  fun p q => inferInstanceAs (Decidable (_ ∨ _))

instance : IsTotal (String × Season) keyLE := by
  constructor
  intro p q
  cases hpq : strLt p.1 q.1
  · cases hqp : strLt q.1 p.1
    · have heq : p.1 = q.1 := strLt_connex hpq hqp
      cases hl : strLt (seasonLabel q.2) (seasonLabel p.2)
      · exact Or.inl (Or.inr ⟨heq, hl⟩)
      · exact Or.inr (Or.inr ⟨heq.symm, charListLt_asymm _ _ hl⟩)
    · exact Or.inr (Or.inl hqp)
  · exact Or.inl (Or.inl hpq)

instance : IsTrans (String × Season) keyLE := by
  constructor
  intro a b c hab hbc
  rcases hab with h1 | ⟨h1, h1'⟩
  · rcases hbc with h2 | ⟨h2, _⟩
    · exact Or.inl (charListLt_trans _ _ _ h1 h2)
    · exact Or.inl (h2 ▸ h1)
  · rcases hbc with h2 | ⟨h2, h2'⟩
    · exact Or.inl (h1 ▸ h2)
    · refine Or.inr ⟨h1.trans h2, ?_⟩
      cases hca : strLt (seasonLabel c.2) (seasonLabel a.2)
      · rfl
      · cases hba : strLt (seasonLabel a.2) (seasonLabel b.2)
        · have hlab : seasonLabel a.2 = seasonLabel b.2 := strLt_connex hba h1'
          rw [← hlab] at h2'
          exact (h2'.symm.trans hca).symm
        · have h3 : strLt (seasonLabel c.2) (seasonLabel b.2) = true :=
            charListLt_trans _ _ _ hca hba
          exact (h2'.symm.trans h3).symm

/-- One row of `df_stacked_data`: a `(station, season)` group and its size
(the spec's `StationAggregate`). -/
structure StationAggregate where
  start_station_name : String
  season : Season
  trip_count : Nat
deriving DecidableEq, Repr

/-- `df_stacked_data = df_top_20.groupby(['start_station_name', 'season'])
.size().reset_index(name='trip_count')` (`dashboard_final.py`, line 112):
one row per present `(station, season)` key, keys sorted ascending
lexicographically, each row carrying the group's size. -/
def df_stacked_data (records : List TripRecord) (sel : List Season) (topN : Nat) :
    List StationAggregate :=
  (List.insertionSort keyLE (distinctKeys (groupPairs (df_top_20 records sel topN)))).map
    (fun k => ⟨k.1, k.2, (groupPairs (df_top_20 records sel topN)).count k⟩)

/-- Failure kinds of the loader.  A missing input file surfaces as Python's
`FileNotFoundError` naming the path (raised by `pd.read_csv` / `open`),
which the spec's taxonomy calls `DataUnavailable`. -/
inductive LoadError where
  | dataUnavailable (path : String)
deriving DecidableEq, Repr

/-- One row of the pre-aggregated daily summary
`citi_bike_daily_summary_2022.csv` (read but not transformed by the
pipeline under study). -/
structure DailyRow where
  date : String
  trip_count : Nat
  avgTemp : Rat
deriving DecidableEq, Repr

/-- The trip-file path hard-coded in `load_data` (`dashboard_final.py`). -/
def trip_csv_path : String := "citi_bike_2022_small_sample.csv"

/-- The daily-summary path hard-coded in `load_data` (`dashboard_final.py`). -/
def daily_csv_path : String := "citi_bike_daily_summary_2022.csv"

/-- `pd.read_csv` against an abstract store of parsed tables keyed by path:
a present file yields its table, a missing file fails naming the path. -/
def read_csv {α : Type} (store : String → Option α) (path : String) : Except LoadError α :=
  match store path with
  | none => .error (.dataUnavailable path)
  | some t => .ok t

/-- `load_data` (`dashboard_final.py`, lines 17–40): reads the trip file and
then the daily summary, propagating the first failure.  Timestamp parsing
and the month/season column derivations are reflected in the `TripRecord`
fields and `TripRecord.season`. -/
def load_data (tripStore : String → Option (List TripRecord))
    (dailyStore : String → Option (List DailyRow)) :
    Except LoadError (List TripRecord × List DailyRow) := do
  let df ← read_csv tripStore trip_csv_path
  let df_daily ← read_csv dailyStore daily_csv_path
  return (df, df_daily)

/-- The full season selection offered by the sidebar multiselect
(`season_options`, in its display order). -/
def allSeasons : List Season :=
  [.winter, .spring, .summer, .fall]

/-- The display rank of a season in the spec's fixed order
Winter, Spring, Summer, Fall (spec §3). -/
def seasonRank : Season → Nat
  | .winter => 0
  | .spring => 1
  | .summer => 2
  | .fall   => 3

/-- A station's total trip count within an emitted aggregate sequence. -/
def stationTotalIn (out : List StationAggregate) (name : String) : Nat :=
  ((out.filter (fun a => a.start_station_name == name)).map StationAggregate.trip_count).sum

/-- The output ordering stated by the spec for the emitted aggregate
sequence, written from the spec's words for comparison with the code's
output: stations in descending order of total count, and within a station
the seasons in the fixed Winter, Spring, Summer, Fall order. -/
def specDisplayOrdered (out : List StationAggregate) : Prop :=
  out.Pairwise (fun a b =>
    stationTotalIn out b.start_station_name ≤ stationTotalIn out a.start_station_name ∧
    (a.start_station_name = b.start_station_name → seasonRank a.season ≤ seasonRank b.season))

instance (out : List StationAggregate) : Decidable (specDisplayOrdered out) :=
  inferInstanceAs (Decidable (List.Pairwise _ _))

/-- The tie-break rule stated by the spec for the station ranking, written
from the spec's words for comparison with the code's ranking: entries in
descending count order, with equal counts ordered by the station's first
appearance in the transform's input sequence. -/
def specInputTieBreak (records : List TripRecord) (ranking : List (String × Nat)) : Prop :=
  ranking.Pairwise (fun p q =>
    q.2 < p.2 ∨ (p.2 = q.2 ∧
      (records.map TripRecord.start_station_name).findIdx (fun s => s == p.1)
        ≤ (records.map TripRecord.start_station_name).findIdx (fun s => s == q.1)))

instance (records : List TripRecord) (ranking : List (String × Nat)) :
    Decidable (specInputTieBreak records ranking) :=
  inferInstanceAs (Decidable (List.Pairwise _ _))

/-- A small concrete trip table used to instantiate the theorems below. -/
def sampleTrips : List TripRecord :=
  [⟨1, "A"⟩, ⟨7, "A"⟩, ⟨1, "B"⟩]

/-- A trip table on which a station's first appearance (month 7, summer)
is removed by a winter-only filter: "A" appears before "B" in the input,
but after it in the winter-filtered rows. -/
def cexTrips : List TripRecord :=
  [⟨7, "A"⟩, ⟨1, "B"⟩, ⟨1, "A"⟩]

/-- A trip table whose alphabetical station order disagrees with the
by-count order ("B" has two trips, "A" one), and whose seasons within "B"
are Winter then Summer. -/
def cexTripsOrd : List TripRecord :=
  [⟨1, "B"⟩, ⟨7, "B"⟩, ⟨1, "A"⟩]

/-! ### Supporting lemmas about the tabulation primitives -/

theorem mem_distinctKeys {α : Type} [DecidableEq α] (l : List α) (a : α) :
    a ∈ distinctKeys l ↔ a ∈ l := by
  induction l with
  | nil => simp [distinctKeys]
  | cons b t ih =>
    simp only [distinctKeys, List.mem_cons, List.mem_filter, decide_eq_true_eq]
    constructor
    · rintro (rfl | ⟨h, _⟩)
      · exact Or.inl rfl
      · exact Or.inr (ih.mp h)
    · rintro (rfl | h)
      · exact Or.inl rfl
      · by_cases hab : a = b
        · exact Or.inl hab
        · exact Or.inr ⟨ih.mpr h, hab⟩

theorem nodup_distinctKeys {α : Type} [DecidableEq α] (l : List α) :
    (distinctKeys l).Nodup := by
  induction l with
  | nil => simp [distinctKeys]
  | cons b t ih =>
    rw [distinctKeys]
    refine List.Nodup.cons ?_ (ih.filter _)
    intro hmem
    have h := (List.mem_filter.mp hmem).2
    simp at h

theorem sum_map_add {α : Type} (l : List α) (f g : α → Nat) :
    (l.map (fun x => f x + g x)).sum = (l.map f).sum + (l.map g).sum := by
  induction l with
  | nil => rfl
  | cons a t ih =>
    simp only [List.map_cons, List.sum_cons, ih]
    omega

theorem sum_map_indicator {α : Type} [BEq α] [LawfulBEq α] (keys : List α) (a : α) :
    (keys.map (fun k => if k == a then 1 else 0)).sum = keys.count a := by
  induction keys with
  | nil => rfl
  | cons b t ih =>
    simp only [List.map_cons, List.sum_cons, List.count_cons, ih]
    omega

theorem count_eq_one_nodup {α : Type} [BEq α] [LawfulBEq α] :
    ∀ {l : List α} {a : α}, l.Nodup → a ∈ l → l.count a = 1 := by
  intro l a hnd ha
  induction l with
  | nil => cases ha
  | cons b t ih =>
    rw [List.count_cons]
    rcases List.mem_cons.mp ha with rfl | hat
    · rw [List.count_eq_zero_of_not_mem (List.nodup_cons.mp hnd).1]
      simp
    · have hba : b ≠ a := by
        rintro rfl
        exact (List.nodup_cons.mp hnd).1 hat
      rw [ih (List.nodup_cons.mp hnd).2 hat]
      simp [beq_iff_eq, hba]

theorem count_filter_of_pred {α : Type} [BEq α] [LawfulBEq α] (p : α → Bool) (a : α)
    (h : p a = true) : ∀ (l : List α), (l.filter p).count a = l.count a := by
  intro l
  induction l with
  | nil => rfl
  | cons b t ih =>
    rw [List.filter_cons]
    by_cases hb : p b = true
    · rw [if_pos hb, List.count_cons, List.count_cons, ih]
    · rw [if_neg hb, ih, List.count_cons]
      have hba : b ≠ a := by
        rintro rfl
        exact hb h
      simp [beq_iff_eq, hba]

theorem sum_map_count {α : Type} [BEq α] [LawfulBEq α] :
    ∀ (l keys : List α), keys.Nodup → (∀ a ∈ l, a ∈ keys) →
      (keys.map (fun k => l.count k)).sum = l.length
  | [], keys, _, _ => by simp
  | a :: t, keys, hnd, hsub => by
    have h1 : ∀ x ∈ t, x ∈ keys := fun x hx => hsub x (List.mem_cons_of_mem _ hx)
    have ha : a ∈ keys := hsub a (List.mem_cons_self _ _)
    have hsplit : (keys.map (fun k => (a :: t).count k)).sum
        = (keys.map (fun k => t.count k)).sum
          + (keys.map (fun k => if k == a then 1 else 0)).sum := by
      rw [← sum_map_add]
      refine congrArg List.sum (List.map_congr_left fun k _ => ?_)
      rw [List.count_cons]
      rcases eq_or_ne a k with h | h
      · simp [h]
      · simp [beq_iff_eq, h, Ne.symm h]
    rw [hsplit, sum_map_indicator, count_eq_one_nodup hnd ha,
      sum_map_count t keys hnd h1, List.length_cons]

theorem seasonIn_eq_false_of_none {sel : List Season} {r : TripRecord}
    (h : seasons r.month = none) : seasonIn sel r = false := by
  unfold seasonIn TripRecord.season
  rw [h]

theorem isSome_season_of_mem_df_filtered {records : List TripRecord} {sel : List Season}
    {r : TripRecord} (h : r ∈ df_filtered records sel) :
    (seasons r.month).isSome = true := by
  have hp : seasonIn sel r = true := List.of_mem_filter h
  cases hs : seasons r.month with
  | some s => rfl
  | none => rw [seasonIn_eq_false_of_none hs] at hp; exact hp

theorem groupPairs_filter_length :
    ∀ (l : List TripRecord), (∀ r ∈ l, (seasons r.month).isSome = true) → ∀ (name : String),
      ((groupPairs l).filter (fun p => decide (p.1 = name))).length
        = (l.filter (fun r => decide (r.start_station_name = name))).length
  | [], _, _ => rfl
  | r :: t, h, name => by
    obtain ⟨s, hs⟩ := Option.isSome_iff_exists.mp (h r (List.mem_cons_self _ _))
    have ht : ∀ x ∈ t, (seasons x.month).isSome = true :=
      fun x hx => h x (List.mem_cons_of_mem _ hx)
    have hkey : groupKey r = some (r.start_station_name, s) := by
      unfold groupKey
      rw [hs]
      rfl
    have hcons : groupPairs (r :: t) = (r.start_station_name, s) :: groupPairs t :=
      List.filterMap_cons_some hkey
    rw [hcons, List.filter_cons, List.filter_cons]
    by_cases hn : r.start_station_name = name
    · simp [hn, groupPairs_filter_length t ht name]
    · simp [hn, groupPairs_filter_length t ht name]

theorem df_top_20_filter_name (records : List TripRecord) (sel : List Season) (topN : Nat)
    (name : String) (hmem : name ∈ top_20_station_names records sel topN) :
    (df_top_20 records sel topN).filter (fun r => decide (r.start_station_name = name))
      = (df_filtered records sel).filter (fun r => decide (r.start_station_name = name)) := by
  unfold df_top_20
  rw [List.filter_filter]
  refine List.filter_congr fun r _ => ?_
  by_cases h : r.start_station_name = name
  · simp [h, hmem]
  · simp [h]

theorem stacked_sum_eq (records : List TripRecord) (sel : List Season) (topN : Nat)
    (name : String) (hmem : name ∈ top_20_station_names records sel topN) :
    (((df_stacked_data records sel topN).filter
        (fun a => decide (a.start_station_name = name))).map StationAggregate.trip_count).sum
      = ((df_filtered records sel).filter
          (fun r => decide (r.start_station_name = name))).length := by
  have hvalid : ∀ r ∈ df_top_20 records sel topN, (seasons r.month).isSome = true :=
    fun r hr => isSome_season_of_mem_df_filtered (List.mem_of_mem_filter hr)
  unfold df_stacked_data
  rw [List.filter_map, List.map_map]
  show List.sum
      (List.map
        (fun k : String × Season => (groupPairs (df_top_20 records sel topN)).count k)
        (List.filter
          (fun k : String × Season => decide (k.1 = name))
          (List.insertionSort keyLE (distinctKeys (groupPairs (df_top_20 records sel topN))))))
    = List.length
        (List.filter
          (fun r => decide (r.start_station_name = name))
          (df_filtered records sel))
  have hperm : List.Perm
      (List.insertionSort keyLE (distinctKeys (groupPairs (df_top_20 records sel topN))))
      (distinctKeys (groupPairs (df_top_20 records sel topN))) :=
    List.perm_insertionSort _ _
  have hcount : ∀ k ∈ (List.insertionSort keyLE
        (distinctKeys (groupPairs (df_top_20 records sel topN)))).filter
        (fun k : String × Season => decide (k.1 = name)),
      (groupPairs (df_top_20 records sel topN)).count k
        = ((groupPairs (df_top_20 records sel topN)).filter
            (fun p => decide (p.1 = name))).count k := by
    intro k hk
    have hkname := (List.mem_filter.mp hk).2
    exact (count_filter_of_pred _ k hkname _).symm
  rw [List.map_congr_left hcount]
  have hnodup : (List.filter (fun k : String × Season => decide (k.1 = name))
      (List.insertionSort keyLE (distinctKeys (groupPairs (df_top_20 records sel topN))))).Nodup :=
    (hperm.symm.nodup (nodup_distinctKeys _)).filter _
  have hsub : ∀ p ∈ List.filter (fun p : String × Season => decide (p.1 = name))
      (groupPairs (df_top_20 records sel topN)),
      p ∈ List.filter (fun k : String × Season => decide (k.1 = name))
        (List.insertionSort keyLE (distinctKeys (groupPairs (df_top_20 records sel topN)))) := by
    intro p hp
    have hp1 : p ∈ groupPairs (df_top_20 records sel topN) := List.mem_of_mem_filter hp
    have hpn := (List.mem_filter.mp hp).2
    exact List.mem_filter.mpr ⟨hperm.mem_iff.mpr ((mem_distinctKeys _ _).mpr hp1), hpn⟩
  refine (sum_map_count
      (List.filter (fun p : String × Season => decide (p.1 = name))
        (groupPairs (df_top_20 records sel topN)))
      (List.filter (fun k : String × Season => decide (k.1 = name))
        (List.insertionSort keyLE (distinctKeys (groupPairs (df_top_20 records sel topN)))))
      hnodup hsub).trans ?_
  rw [groupPairs_filter_length _ hvalid name]
  exact congrArg List.length (df_top_20_filter_name records sel topN name hmem)

theorem filter_orderedInsert_count (c : Nat) (p : String × Nat) (l : List (String × Nat)) :
    (List.orderedInsert countDesc p l).filter (fun q => decide (q.2 = c))
      = if p.2 = c then p :: l.filter (fun q => decide (q.2 = c))
        else l.filter (fun q => decide (q.2 = c)) := by
  induction l with
  | nil =>
    rw [List.orderedInsert, List.filter_cons]
    by_cases h : p.2 = c <;> simp [h]
  | cons b t ih =>
    rw [List.orderedInsert]
    by_cases hle : countDesc p b
    · rw [if_pos hle, List.filter_cons, List.filter_cons]
      by_cases h : p.2 = c <;> simp [h]
    · rw [if_neg hle, List.filter_cons, List.filter_cons, ih]
      have hgt : p.2 < b.2 := by
        unfold countDesc at hle
        omega
      by_cases h : p.2 = c
      · have hb : ¬ (b.2 = c) := by omega
        simp [h, hb]
      · by_cases hb : b.2 = c <;> simp [h, hb]

theorem filter_insertionSort_count (c : Nat) (l : List (String × Nat)) :
    (List.insertionSort countDesc l).filter (fun q => decide (q.2 = c))
      = l.filter (fun q => decide (q.2 = c)) := by
  induction l with
  | nil => rfl
  | cons p t ih =>
    rw [List.insertionSort, filter_orderedInsert_count, ih, List.filter_cons]
    by_cases h : p.2 = c <;> simp [h]

theorem mem_station_counts {names : List String} {p : String × Nat}
    (hp : p ∈ station_counts names) : p.2 = names.count p.1 := by
  obtain ⟨s, _, hmk⟩ := List.mem_map.mp hp
  rw [← hmk]

theorem seasons_total (m : Nat) (h1 : 1 ≤ m) (h2 : m ≤ 12) :
    ∃ s, seasons m = some s := by
  unfold seasons
  split_ifs <;> first | exact ⟨_, rfl⟩ | omega

theorem seasons_none (m : Nat) (h : m = 0 ∨ 12 < m) : seasons m = none := by
  unfold seasons
  split_ifs <;> first | rfl | omega

theorem df_filtered_all (records : List TripRecord)
    (hvalid : ∀ r ∈ records, 1 ≤ r.month ∧ r.month ≤ 12) :
    df_filtered records allSeasons = records := by
  unfold df_filtered
  rw [List.filter_eq_self]
  intro r hr
  obtain ⟨h1, h2⟩ := hvalid r hr
  obtain ⟨s, hs⟩ := seasons_total r.month h1 h2
  unfold seasonIn TripRecord.season
  rw [hs]
  cases s <;> rfl

theorem df_filtered_empty_sel (records : List TripRecord) :
    df_filtered records [] = [] := by
  unfold df_filtered
  rw [List.filter_eq_nil_iff]
  intro r _
  unfold seasonIn
  cases r.season <;> simp

/-! ### The claims -/

/-- C1: for every trip table, every non-empty season selection, and every
station retained by the top-N cut, the counts of the emitted aggregates for
that station sum to the station's total number of season-filtered trips. -/
theorem claim1_station_sum (records : List TripRecord) (sel : List Season) (topN : Nat)
    (hsel : sel ≠ []) (name : String)
    (hmem : name ∈ top_20_station_names records sel topN) :
    (((df_stacked_data records sel topN).filter
        (fun a => decide (a.start_station_name = name))).map StationAggregate.trip_count).sum
      = ((df_filtered records sel).filter
          (fun r => decide (r.start_station_name = name))).length :=
  stacked_sum_eq records sel topN name hmem

/-- Witness for C1 at a concrete table: station "A" keeps total 2 across
its winter and summer aggregates. -/
theorem claim1_station_sum_witness :
    ([Season.winter, Season.summer] ≠ ([] : List Season))
    ∧ "A" ∈ top_20_station_names sampleTrips [Season.winter, Season.summer] 20
    ∧ (((df_stacked_data sampleTrips [Season.winter, Season.summer] 20).filter
        (fun a => decide (a.start_station_name = "A"))).map StationAggregate.trip_count).sum
      = ((df_filtered sampleTrips [Season.winter, Season.summer]).filter
          (fun r => decide (r.start_station_name = "A"))).length :=
  ⟨by decide, by decide,
    claim1_station_sum sampleTrips [Season.winter, Season.summer] 20 (by decide) "A" (by decide)⟩

/-- C2: aggregating with an empty season selection yields the empty
sequence, for every trip table (non-empty ones included) and every cut. -/
theorem claim2_empty_selection (records : List TripRecord) (topN : Nat) :
    df_stacked_data records [] topN = [] := by
  unfold df_stacked_data df_top_20
  rw [df_filtered_empty_sel records]
  rfl

/-- C3: on months 1–12 the season mapping is total and matches the fixed
table: 12, 1, 2 to Winter; 3–5 to Spring; 6–8 to Summer; 9–11 to Fall. -/
theorem claim3_season_table (m : Nat) (h1 : 1 ≤ m) (h2 : m ≤ 12) :
    (seasons m).isSome = true
    ∧ (seasons m = some Season.winter ↔ (m = 12 ∨ m = 1 ∨ m = 2))
    ∧ (seasons m = some Season.spring ↔ (m = 3 ∨ m = 4 ∨ m = 5))
    ∧ (seasons m = some Season.summer ↔ (m = 6 ∨ m = 7 ∨ m = 8))
    ∧ (seasons m = some Season.fall ↔ (m = 9 ∨ m = 10 ∨ m = 11)) := by
  interval_cases m <;> decide

/-- Witness for C3 at month 6. -/
theorem claim3_season_table_witness :
    (1 ≤ (6 : Nat)) ∧ ((6 : Nat) ≤ 12) ∧ (seasons 6).isSome = true :=
  ⟨by decide, by decide, (claim3_season_table 6 (by decide) (by decide)).1⟩

/-- Counterexample for C4 as stated: on `cexTrips` with only Winter
selected, "A" and "B" tie at one filtered trip each and "A" is seen first
in the input sequence, yet the ranking puts "B" first (the ranking follows
first appearance in the *filtered* rows, where "A"'s summer trip is gone). -/
theorem claim4_tiebreak_counterexample :
    ¬ specInputTieBreak cexTrips
      (value_counts ((df_filtered cexTrips [Season.winter]).map
        TripRecord.start_station_name)) := by
  decide

/-- C4 (amended): the ranking is sorted by descending filtered trip count;
entries with any given count appear exactly in their order of first
appearance in the season-filtered sequence (not the unfiltered input); each
entry carries its station's filtered count; and the top-N names are the
first `topN` entries of this ranking. -/
theorem claim4_rank_stable (records : List TripRecord) (sel : List Season) (topN : Nat) :
    (value_counts ((df_filtered records sel).map TripRecord.start_station_name)).Pairwise
      countDesc
    ∧ (∀ c : Nat,
        (value_counts ((df_filtered records sel).map TripRecord.start_station_name)).filter
            (fun q => decide (q.2 = c))
          = (station_counts ((df_filtered records sel).map TripRecord.start_station_name)).filter
              (fun q => decide (q.2 = c)))
    ∧ (∀ p ∈ value_counts ((df_filtered records sel).map TripRecord.start_station_name),
        p.2 = ((df_filtered records sel).map TripRecord.start_station_name).count p.1)
    ∧ top_20_station_names records sel topN
        = ((value_counts ((df_filtered records sel).map TripRecord.start_station_name)).take
            topN).map Prod.fst := by
  refine ⟨?_, ?_, ?_, rfl⟩
  · exact List.sorted_insertionSort countDesc _
  · intro c
    exact filter_insertionSort_count c _
  · intro p hp
    exact mem_station_counts ((List.perm_insertionSort countDesc _).mem_iff.mp hp)

/-- Counterexample for C5 as stated: on `cexTripsOrd` the emitted sequence
starts with station "A" (total 1) before "B" (total 2), and "B"'s Summer
row precedes its Winter row — neither the descending-total station order
nor the fixed Winter-first season order claimed by the spec. -/
theorem claim5_display_order_counterexample :
    ¬ specDisplayOrdered (df_stacked_data cexTripsOrd [Season.winter, Season.summer] 2) := by
  decide

/-- C5 (amended): the emitted sequence is sorted ascending lexicographically
by station name and then by the season's string label (pandas `groupby`
key order); the descending-total station display and the fixed season order
are applied downstream by the chart layer, not in this sequence. -/
theorem claim5_lexicographic_order (records : List TripRecord) (sel : List Season)
    (topN : Nat) :
    (df_stacked_data records sel topN).Pairwise (fun a b =>
      keyLE (a.start_station_name, a.season) (b.start_station_name, b.season)) := by
  unfold df_stacked_data
  rw [List.pairwise_map]
  exact (List.sorted_insertionSort keyLE _).imp (fun h => h)

/-- C6: with all four seasons selected and every month in range, a top
station's aggregate counts re-sum to its unfiltered trip count. -/
theorem claim6_all_seasons_totals (records : List TripRecord) (topN : Nat)
    (hvalid : ∀ r ∈ records, 1 ≤ r.month ∧ r.month ≤ 12)
    (name : String) (hmem : name ∈ top_20_station_names records allSeasons topN) :
    (((df_stacked_data records allSeasons topN).filter
        (fun a => decide (a.start_station_name = name))).map StationAggregate.trip_count).sum
      = (records.filter (fun r => decide (r.start_station_name = name))).length := by
  refine (stacked_sum_eq records allSeasons topN name hmem).trans ?_
  rw [df_filtered_all records hvalid]

/-- Witness for C6 at a concrete table: "A" re-sums to its full count 2. -/
theorem claim6_all_seasons_totals_witness :
    (∀ r ∈ sampleTrips, 1 ≤ r.month ∧ r.month ≤ 12)
    ∧ "A" ∈ top_20_station_names sampleTrips allSeasons 20
    ∧ (((df_stacked_data sampleTrips allSeasons 20).filter
        (fun a => decide (a.start_station_name = "A"))).map StationAggregate.trip_count).sum
      = (sampleTrips.filter (fun r => decide (r.start_station_name = "A"))).length :=
  ⟨by decide, by decide,
    claim6_all_seasons_totals sampleTrips 20 (by decide) "A" (by decide)⟩

/-- Counterexample for C7 as stated: on the out-of-range months 0 and 13
the season derivation does not fail with any error — it yields the missing
value (`none`, pandas `NaN`); no `InvalidMonth` failure exists in the code. -/
theorem claim7_invalid_month_counterexample :
    seasons 0 = none ∧ seasons 13 = none := by
  decide

/-- C7 (amended): for every month outside 1–12 the season derivation
silently yields the missing value rather than raising or defaulting to one
of the four labels. -/
theorem claim7_out_of_range_none (m : Nat) (h : m = 0 ∨ 12 < m) : seasons m = none :=
  seasons_none m h

/-- Witness for C7 (amended) at month 13. -/
theorem claim7_out_of_range_none_witness :
    ((13 : Nat) = 0 ∨ 12 < (13 : Nat)) ∧ seasons 13 = none :=
  ⟨Or.inr (by decide), claim7_out_of_range_none 13 (Or.inr (by decide))⟩

/-- C8: a missing input file makes the loader fail with the missing-file
error naming that path — the trip file first, else the daily summary. -/
theorem claim8_missing_file (tripStore : String → Option (List TripRecord))
    (dailyStore : String → Option (List DailyRow)) :
    (tripStore trip_csv_path = none →
      load_data tripStore dailyStore = .error (.dataUnavailable trip_csv_path))
    ∧ (∀ df, tripStore trip_csv_path = some df → dailyStore daily_csv_path = none →
        load_data tripStore dailyStore = .error (.dataUnavailable daily_csv_path)) := by
  constructor
  · intro h
    simp only [load_data, read_csv, h]
    rfl
  · intro df h1 h2
    simp only [load_data, read_csv, h1, h2]
    rfl

/-- Witness for C8: an empty store fails naming the trip-file path. -/
theorem claim8_missing_file_witness :
    load_data (fun _ => none) (fun _ => none)
      = .error (.dataUnavailable trip_csv_path) :=
  (claim8_missing_file (fun _ => none) (fun _ => none)).1 rfl

/-- C9: the emitted aggregates have pairwise-distinct (station, season)
keys, exactly the keys with at least one trip among the kept top stations,
and every emitted count is at least one — zero-count combinations are
omitted, never emitted. -/
theorem claim9_group_support (records : List TripRecord) (sel : List Season) (topN : Nat) :
    (∀ a ∈ df_stacked_data records sel topN, 1 ≤ a.trip_count)
    ∧ ((df_stacked_data records sel topN).map
        (fun a => (a.start_station_name, a.season))).Nodup
    ∧ (∀ name s, (name, s) ∈ (df_stacked_data records sel topN).map
          (fun a => (a.start_station_name, a.season))
        ↔ 0 < (groupPairs (df_top_20 records sel topN)).count (name, s)) := by
  have hperm : List.Perm
      (List.insertionSort keyLE (distinctKeys (groupPairs (df_top_20 records sel topN))))
      (distinctKeys (groupPairs (df_top_20 records sel topN))) :=
    List.perm_insertionSort _ _
  have hkeys : (df_stacked_data records sel topN).map
        (fun a => (a.start_station_name, a.season))
      = List.insertionSort keyLE (distinctKeys (groupPairs (df_top_20 records sel topN))) := by
    unfold df_stacked_data
    rw [List.map_map]
    exact List.map_id _
  refine ⟨?_, ?_, ?_⟩
  · intro a ha
    unfold df_stacked_data at ha
    obtain ⟨k, hk, hmk⟩ := List.mem_map.mp ha
    have hkp : k ∈ groupPairs (df_top_20 records sel topN) :=
      (mem_distinctKeys _ _).mp (hperm.mem_iff.mp hk)
    rw [← hmk]
    exact List.count_pos_iff.mpr hkp
  · rw [hkeys]
    exact hperm.symm.nodup (nodup_distinctKeys _)
  · intro name s
    rw [hkeys, hperm.mem_iff, mem_distinctKeys]
    exact List.count_pos_iff.symm

/-- Witness for C9: a concrete key's presence matches its positive count. -/
theorem claim9_group_support_witness :
    (("A", Season.winter) ∈ (df_stacked_data sampleTrips [Season.winter] 20).map
        (fun a => (a.start_station_name, a.season)))
      ↔ 0 < (groupPairs (df_top_20 sampleTrips [Season.winter] 20)).count
          ("A", Season.winter) :=
  (claim9_group_support sampleTrips [Season.winter] 20).2.2 "A" Season.winter

/-- C10: a record whose month lies outside 1–12 gets the missing season
value without any failure, and is dropped by the seasonal filter for every
selection; the pipeline is total over all month values. -/
theorem claim10_invalid_months_excluded (r : TripRecord)
    (h : r.month = 0 ∨ 12 < r.month) :
    r.season = none
    ∧ ∀ (records : List TripRecord) (sel : List Season), r ∉ df_filtered records sel := by
  have hn : seasons r.month = none := seasons_none r.month h
  refine ⟨hn, ?_⟩
  intro records sel hmem
  have hp : seasonIn sel r = true := List.of_mem_filter hmem
  rw [seasonIn_eq_false_of_none hn] at hp
  cases hp

/-- Witness for C10 at month 13. -/
theorem claim10_invalid_months_excluded_witness :
    (⟨13, "X"⟩ : TripRecord).season = none
    ∧ (⟨13, "X"⟩ : TripRecord) ∉ df_filtered [⟨13, "X"⟩] allSeasons :=
  ⟨(claim10_invalid_months_excluded ⟨13, "X"⟩ (Or.inr (by decide))).1,
    (claim10_invalid_months_excluded ⟨13, "X"⟩ (Or.inr (by decide))).2 [⟨13, "X"⟩] allSeasons⟩

end CitiBike
